import Mathlib

/-!
Verification development for the esker vendor-email listener
(src/python/listener_20251031/listener.py).

The listener watches an Outlook inbox; on each new mail item whose subject
contains a configured keyword it serializes a five-field JSON payload into a
queue directory (write_temp_json), mirrors a backup copy to a Downloads
folder, and submits the job to a process-wide single-slot ThreadPoolExecutor
(ensure_worker_executor / enqueue_worker).  The worker wrapper (worker_task)
invokes an external automation process (run_worker); on exit code 0 the job
file is copied into a success archive directory and the original is deleted
(a delete error is tolerated), otherwise the file is left in place.

The embedding below models the filesystem state touched by the listener as
explicit finite maps (association lists, most recent write first), the
external subprocess outcome as an explicit argument, and Python exceptions
as Except values threaded through the code paths that the source guards
with try/except.  The single-slot executor is modelled as a labelled
transition system over an explicit state.
-/

/-! ## Configuration constants (CONFIG section of listener.py) -/

def PYTHON_EXE : String := "python.exe"

def APP_UI : String := "C:/Users/john.tan/esker/Scripts/app_ui.py"

def QUEUE_DIR : String := "C:/Users/john.tan/esker/queue"

def ARCHIVE_SUCCESS_DIR : String := "C:/Users/john.tan/esker/archive/success"

/-- KEYWORDS from listener.py: lower-case keyword phrases matched against
the lowered subject. -/
def KEYWORDS : List String := ["esker vendor email", "esker gl email"]

/-- Name of the runner log file (under the temp directory in the source). -/
def runnerLogName : String := "esker_listener_runner.log"

/-! ## Decimal rendering (embedding of Python d and 09d formatting)

decReprAux is fuel-based structural recursion so that the kernel can
evaluate it on concrete inputs; decReprAux_eq_digits bridges it to
Mathlib's Nat.digits for the injectivity proof. -/

def digitChar : Nat → Char
  | 0 => '0'
  | 1 => '1'
  | 2 => '2'
  | 3 => '3'
  | 4 => '4'
  | 5 => '5'
  | 6 => '6'
  | 7 => '7'
  | 8 => '8'
  | 9 => '9'
  | _ => '*'

def decReprAux : Nat → Nat → List Char
  | _, 0 => []
  | 0, _ + 1 => []
  | f + 1, n + 1 => decReprAux f ((n + 1) / 10) ++ [digitChar ((n + 1) % 10)]

/-- Decimal rendering of a natural number, most significant digit first. -/
def decRepr (n : Nat) : List Char :=
  if n = 0 then ['0'] else decReprAux n n

/-- Zero-padding to a fixed width: embedding of the Python format spec 0wd
(for values that already need more than w digits, no padding is added,
as in Python). -/
def padLeft0 (w n : Nat) : String :=
  ⟨List.replicate (w - (decRepr n).length) '0' ++ decRepr n⟩

def pad2 (n : Nat) : String := padLeft0 2 n

def pad4 (n : Nat) : String := padLeft0 4 n

def pad9 (n : Nat) : String := padLeft0 9 n

/-- Numeric value of a decimal character ('0' has code 48). -/
def chVal (c : Char) : Nat := c.toNat - 48

/-- Value of a big-endian list of decimal characters. -/
def valChars (l : List Char) : Nat := l.foldl (fun a c => a * 10 + chVal c) 0

/-! ## Timestamps and filenames

DT models a wall-clock reading broken into calendar fields, as consumed by
the two strftime format strings in listener.py. -/

structure DT where
  year : Nat
  month : Nat
  day : Nat
  hour : Nat
  minute : Nat
  second : Nat
deriving DecidableEq

/-- Embedding of time.strftime with format YmdHMS and an underscore,
as used for the queue filename in write_temp_json. -/
def tsFormat (d : DT) : String :=
  pad4 d.year ++ pad2 d.month ++ pad2 d.day ++ "_"
    ++ pad2 d.hour ++ pad2 d.minute ++ pad2 d.second

/-- Embedding of recv.strftime with the ISO-8601 Z-suffixed format used in
OnItemAdd for received_utc. -/
def isoFormat (d : DT) : String :=
  pad4 d.year ++ "-" ++ pad2 d.month ++ "-" ++ pad2 d.day ++ "T"
    ++ pad2 d.hour ++ ":" ++ pad2 d.minute ++ ":" ++ pad2 d.second ++ "Z"

/-- The queue filename generated by write_temp_json: second-granularity
timestamp, an underscore, the 9-digit zero-padded nanosecond tail
(time.time_ns() modulo one billion), and the .json suffix. -/
def fnameOf (d : DT) (ns : Nat) : String :=
  tsFormat d ++ "_" ++ pad9 (ns % 1000000000) ++ ".json"

/-! ## Substring matching (embedding of the Python in operator on str) -/

def startsWithChars : List Char → List Char → Bool
  | _, [] => true
  | [], _ :: _ => false
  | c :: cs, p :: ps => c == p && startsWithChars cs ps

def hasInfixChars : List Char → List Char → Bool
  | [], pat => pat.isEmpty
  | c :: cs, pat => startsWithChars (c :: cs) pat || hasInfixChars cs pat

/-- Python contiguous-substring containment: pat in s. -/
def containsSub (s pat : String) : Bool := hasInfixChars s.data pat.data

/-- ASCII case lowering of one character (the effect of str.lower() on the
ASCII range; keywords and the subjects of interest are ASCII). -/
def lowerChar : Char → Char
  | 'A' => 'a'
  | 'B' => 'b'
  | 'C' => 'c'
  | 'D' => 'd'
  | 'E' => 'e'
  | 'F' => 'f'
  | 'G' => 'g'
  | 'H' => 'h'
  | 'I' => 'i'
  | 'J' => 'j'
  | 'K' => 'k'
  | 'L' => 'l'
  | 'M' => 'm'
  | 'N' => 'n'
  | 'O' => 'o'
  | 'P' => 'p'
  | 'Q' => 'q'
  | 'R' => 'r'
  | 'S' => 's'
  | 'T' => 't'
  | 'U' => 'u'
  | 'V' => 'v'
  | 'W' => 'w'
  | 'X' => 'x'
  | 'Y' => 'y'
  | 'Z' => 'z'
  | c => c

/-- Embedding of str.lower(). -/
def lowerStr (s : String) : String := ⟨s.data.map lowerChar⟩

/-- subject_hit from listener.py: lower the subject and test whether any
configured keyword phrase occurs in it. -/
def subject_hit (subj : String) : Bool :=
  KEYWORDS.any (fun k => containsSub (lowerStr subj) k)

/-! ## Filesystem and log state touched by the listener

Directories are finite maps from filename to file content; the most recent
write is first, so List.lookup realizes the read-after-write semantics and
overwriting.  The job file content is the serialized JSON object, modelled
as its association list of fields (all values in the source dict are
strings).  pendingJobs is the FIFO work queue of the single-slot executor;
executorCreated models the lazily created process-wide singleton. -/

abbrev Payload := List (String × String)

structure World where
  queueExists : Bool
  queue : List (String × Payload)
  archiveExists : Bool
  archive : List (String × Payload)
  downloadsExists : Bool
  downloads : List (String × Payload)
  runnerLog : List String
  errorLog : List String
  console : List String
  executorCreated : Bool
  pendingJobs : List String
deriving DecidableEq

def emptyWorld : World :=
  { queueExists := false, queue := [], archiveExists := false, archive := []
    downloadsExists := false, downloads := [], runnerLog := [], errorLog := []
    console := [], executorCreated := false, pendingJobs := [] }

/-! ## write_temp_json

Faithful to the source order of effects: ensure the queue directory exists,
write the primary file, ensure the Downloads directory exists, then mirror
the backup copy.  The backup copy (shutil.copy2) is not guarded by any
try/except in the source, so its failure is modelled as an Except.error
carrying the world as it stands at the raise point (primary file already
written).  backupOk says whether the environment lets the copy succeed. -/

def write_temp_json (data : Payload) (d : DT) (ns : Nat) (backupOk : Bool)
    (w : World) : Except (String × World) (String × World) :=
  let w1 : World := { w with queueExists := true }
  let fname := fnameOf d ns
  let w2 : World := { w1 with queue := (fname, data) :: w1.queue }
  let w3 : World := { w2 with downloadsExists := true }
  if backupOk then
    Except.ok (fname, { w3 with downloads := (fname, data) :: w3.downloads })
  else
    Except.error ("shutil.copy2 failed", w3)

/-! ## Worker invocation and archiving -/

structure SubprocResult where
  returncode : Int
  stdout : String
  stderr : String
deriving DecidableEq

def workerCmd : List String := [PYTHON_EXE, APP_UI, "--mode=worker"]

def cmdRender : String := String.intercalate ", " workerCmd

/-- run_worker from listener.py.  The outcome of subprocess.run is an
explicit argument: Except.error e models the invocation itself raising
(for example a missing executable), Except.ok carries returncode, stdout
and stderr.  unlinkOk models whether json_path.unlink() succeeds; a failed
unlink raises OSError which the source swallows with pass.  Any exception
(modelled by Except.error) propagates to the caller together with the world
at the raise point. -/
def run_worker (outcome : Except String SubprocResult) (unlinkOk : Bool)
    (now : String) (jobName : String) (w : World) : Except (String × World) World :=
  let w1 : World := { w with console := w.console
      ++ ["[listener] Starting automation for " ++ jobName] }
  match outcome with
  | Except.error e => Except.error (e, w1)
  | Except.ok result =>
    let w2 : World := { w1 with runnerLog := w1.runnerLog
        ++ [now ++ " ran " ++ cmdRender ++ " for " ++ jobName
            ++ " -> rc=" ++ toString result.returncode]
        ++ (if result.stdout ≠ "" then ["stdout:\n" ++ result.stdout] else [])
        ++ (if result.stderr ≠ "" then ["stderr:\n" ++ result.stderr] else []) }
    if result.returncode = 0 then
      let w3 : World := { w2 with archiveExists := true }
      match List.lookup jobName w3.queue with
      | none => Except.error ("shutil.copy2: missing job file", w3)
      | some content =>
        let w4 : World := { w3 with archive := (jobName, content) :: w3.archive }
        let w5 : World :=
          if unlinkOk then
            { w4 with queue := w4.queue.filter (fun e => e.1 != jobName) }
          else w4
        Except.ok { w5 with console := w5.console
            ++ ["[listener] Worker completed; archived to "
                ++ ARCHIVE_SUCCESS_DIR ++ "/" ++ jobName] }
    else
      Except.ok { w2 with console := w2.console
          ++ ["[listener] Worker failed for " ++ jobName ++ "; see "
              ++ runnerLogName] }

/-- worker_task from listener.py: the wrapper submitted to the executor.
It catches every exception escaping run_worker and appends one line naming
the job file to the runner log; it always returns a world (no
propagation). -/
def worker_task (outcome : Except String SubprocResult) (unlinkOk : Bool)
    (now : String) (jobName : String) (w : World) : World :=
  match run_worker outcome unlinkOk now jobName w with
  | Except.ok w1 => w1
  | Except.error (e, w1) =>
    { w1 with runnerLog := w1.runnerLog
        ++ [now ++ " worker_task error for " ++ jobName ++ ": " ++ e] }

/-! ## Dispatcher (singleton executor and submission) -/

/-- ensure_worker_executor: lazily create the process-wide singleton
ThreadPoolExecutor with one worker slot (creation is guarded by a lock in
the source; its effect on the state is idempotent creation). -/
def ensure_worker_executor (w : World) : World :=
  if w.executorCreated then w else { w with executorCreated := true }

/-- enqueue_worker: log the submission and append the job to the FIFO work
queue of the singleton executor. -/
def enqueue_worker (jobName : String) (w : World) : World :=
  let w1 : World := { w with console := w.console
      ++ ["[listener] Queued automation job for " ++ jobName] }
  let w2 : World := ensure_worker_executor w1
  { w2 with pendingJobs := w2.pendingJobs ++ [jobName] }

/-! ## Mail event handler -/

/-- An Outlook item as read by OnItemAdd.  strftimeOk models whether
recv.strftime succeeds (the source guards it with an inner try/except and
falls back to str(recv), modelled by receivedRaw). -/
structure MailItem where
  Class : Int
  Subject : String
  SenderEmailAddress : String
  Body : String
  ReceivedTime : DT
  strftimeOk : Bool
  receivedRaw : String
  EntryID : String
deriving DecidableEq

/-- The recv_str computation in OnItemAdd with its strftime fallback. -/
def recvStr (item : MailItem) : String :=
  if item.strftimeOk then isoFormat item.ReceivedTime else item.receivedRaw

/-- The payload dict literal built in OnItemAdd, in source order. -/
def payloadOf (item : MailItem) : Payload :=
  [("subject", item.Subject),
   ("sender_address", item.SenderEmailAddress),
   ("received_utc", recvStr item),
   ("body", item.Body),
   ("entry_id", item.EntryID)]

/-- The body of the try block of OnItemAdd: class filter (43 = olMailItem),
subject filter, payload construction, write, console note, enqueue.
Except.error models an exception escaping the body. -/
def onItemAddBody (item : MailItem) (d : DT) (ns : Nat) (backupOk : Bool)
    (w : World) : Except (String × World) World :=
  if item.Class ≠ 43 then Except.ok w
  else if subject_hit item.Subject then
    match write_temp_json (payloadOf item) d ns backupOk w with
    | Except.error e => Except.error e
    | Except.ok (p, w1) =>
      let w2 : World := { w1 with console := w1.console
          ++ ["[listener] Triggered for: " ++ item.Subject ++ " -> " ++ p] }
      Except.ok (enqueue_worker p w2)
  else Except.ok w

/-- OnItemAdd from listener.py: the body wrapped in the per-item
try/except that appends one line to the error log and never propagates. -/
def OnItemAdd (item : MailItem) (d : DT) (ns : Nat) (backupOk : Bool)
    (now : String) (w : World) : World :=
  match onItemAddBody item d ns backupOk w with
  | Except.ok w1 => w1
  | Except.error (e, w1) =>
    { w1 with errorLog := w1.errorLog ++ [now ++ " OnItemAdd error: " ++ e] }

/-! ## The single-slot executor as a transition system

ThreadPoolExecutor(max_workers=1) keeps submitted tasks in a FIFO work
queue; the unique worker thread repeatedly takes the next task only when it
is idle and runs it to completion (worker_task records the outcome before
returning).  Ev.submit models executor.submit, Ev.start the moment the
worker thread begins a task, Ev.finish the task returning with its outcome
recorded. -/

inductive Ev where
  | submit (j : Nat)
  | start (j : Nat)
  | finish (j : Nat)
deriving DecidableEq

structure ExecState where
  pendingQ : List Nat
  running : Option Nat
  done : List Nat
deriving DecidableEq

def initState : ExecState := { pendingQ := [], running := none, done := [] }

inductive ExecStep : ExecState → Ev → ExecState → Prop where
  | submit (j : Nat) (p : List Nat) (r : Option Nat) (d : List Nat) :
      ExecStep ⟨p, r, d⟩ (Ev.submit j) ⟨p ++ [j], r, d⟩
  | start (j : Nat) (p : List Nat) (d : List Nat) :
      ExecStep ⟨j :: p, none, d⟩ (Ev.start j) ⟨p, some j, d⟩
  | finish (j : Nat) (p : List Nat) (d : List Nat) :
      ExecStep ⟨p, some j, d⟩ (Ev.finish j) ⟨p, none, d ++ [j]⟩

inductive TraceR : ExecState → List Ev → ExecState → Prop where
  | nil (s : ExecState) : TraceR s [] s
  | snoc {s : ExecState} {t : List Ev} {s1 : ExecState} {e : Ev} {s2 : ExecState} :
      TraceR s t s1 → ExecStep s1 e s2 → TraceR s (t ++ [e]) s2

def evSubmit : Ev → Option Nat
  | Ev.submit j => some j
  | _ => none

def evStart : Ev → Option Nat
  | Ev.start j => some j
  | _ => none

def evFinish : Ev → Option Nat
  | Ev.finish j => some j
  | _ => none

/-- Jobs submitted in a trace, in submission order. -/
def subs (t : List Ev) : List Nat := t.filterMap evSubmit

/-- Jobs whose worker invocation has started, in start order. -/
def starts (t : List Ev) : List Nat := t.filterMap evStart

/-- Jobs whose invocation has finished with outcome recorded, in order. -/
def fins (t : List Ev) : List Nat := t.filterMap evFinish

def exTrace : List Ev :=
  [Ev.submit 1, Ev.submit 2, Ev.start 1, Ev.finish 1, Ev.start 2, Ev.finish 2]

def exFinal : ExecState := { pendingQ := [], running := none, done := [1, 2] }

/-! ## Concrete example data used by witnesses and counterexamples -/

def dEx : DT := { year := 2025, month := 10, day := 31, hour := 8, minute := 15, second := 0 }

def payloadEx : Payload :=
  [("subject", "esker vendor email test"), ("sender_address", "vendor@example.com"),
   ("received_utc", "2025-10-31T08:15:00Z"), ("body", "hello"), ("entry_id", "ID1")]

def wQueued : World :=
  { emptyWorld with queueExists := true, queue := [("job.json", payloadEx)] }

def itemHit : MailItem :=
  { Class := 43, Subject := "ESKER VENDOR EMAIL batch 12",
    SenderEmailAddress := "vendor@example.com", Body := "body text",
    ReceivedTime := dEx, strftimeOk := true, receivedRaw := "", EntryID := "E1" }

def itemBad : MailItem :=
  { Class := 43, Subject := "esker gl email x",
    SenderEmailAddress := "gl@example.com", Body := "b",
    ReceivedTime := dEx, strftimeOk := false,
    receivedRaw := "10/31/2025 08:15:00 AM", EntryID := "E2" }

def itemOther : MailItem :=
  { Class := 42, Subject := "esker vendor email urgent",
    SenderEmailAddress := "cal@example.com", Body := "b",
    ReceivedTime := dEx, strftimeOk := true, receivedRaw := "", EntryID := "E3" }

def wB : World :=
  { emptyWorld with
    queueExists := true
    queue := [(fnameOf dEx 5, payloadOf itemHit)]
    downloadsExists := true }

/-- Z-suffix test on the last character, the necessary condition for the
ISO-8601 Z-suffixed shape required by the job record schema. -/
def zSuffixed (s : String) : Bool := s.data.getLast? == some 'Z'

/-! ## Theorems -/

theorem chVal_digitChar : ∀ d : Nat, d < 10 → chVal (digitChar d) = d := by decide

theorem decReprAux_eq_digits :
    ∀ fuel n : Nat, n ≤ fuel →
      decReprAux fuel n = ((Nat.digits 10 n).map digitChar).reverse := by
  intro fuel
  induction fuel with
  | zero =>
    intro n hn
    interval_cases n
    simp [decReprAux]
  | succ f ih =>
    intro n hn
    match n with
    | 0 => simp [decReprAux]
    | m + 1 =>
      have hdiv : (m + 1) / 10 ≤ f := by
        have := Nat.div_lt_self (Nat.succ_pos m) (by norm_num : 1 < 10)
        omega
      have hrec := ih ((m + 1) / 10) hdiv
      rw [show decReprAux (f + 1) (m + 1)
            = decReprAux f ((m + 1) / 10) ++ [digitChar ((m + 1) % 10)] from rfl,
          hrec, Nat.digits_def' (by norm_num : 1 < 10) (Nat.succ_pos m)]
      simp

theorem foldl_zero_replicate (k : Nat) :
    List.foldl (fun a c => a * 10 + chVal c) 0 (List.replicate k '0') = 0 := by
  induction k with
  | zero => rfl
  | succ k ih => simpa [List.replicate_succ, chVal] using ih

theorem valChars_replicate_append (k : Nat) (l : List Char) :
    valChars (List.replicate k '0' ++ l) = valChars l := by
  unfold valChars
  rw [List.foldl_append, foldl_zero_replicate]

theorem foldr_map_digitChar (l : List Nat) (h : ∀ d ∈ l, d < 10) :
    List.foldr (fun c acc => acc * 10 + chVal c) 0 (l.map digitChar)
      = Nat.ofDigits 10 l := by
  induction l with
  | nil => simp [Nat.ofDigits]
  | cons d tl ih =>
    have hd : d < 10 := h d (List.mem_cons_self d tl)
    have htl : ∀ x ∈ tl, x < 10 := fun x hx => h x (List.mem_cons_of_mem d hx)
    simp only [List.map_cons, List.foldr_cons, ih htl, Nat.ofDigits_cons,
      chVal_digitChar d hd]
    ring

theorem valChars_decRepr (n : Nat) : valChars (decRepr n) = n := by
  by_cases h : n = 0
  · subst h; decide
  · unfold decRepr
    rw [if_neg h, decReprAux_eq_digits n n (le_refl n)]
    unfold valChars
    rw [List.foldl_reverse]
    have hlt : ∀ d ∈ Nat.digits 10 n, d < 10 := fun d hd =>
      Nat.digits_lt_base (by norm_num) hd
    have := foldr_map_digitChar (Nat.digits 10 n) hlt
    rw [this]
    exact_mod_cast congrArg (fun x => x) (Nat.ofDigits_digits 10 n)

theorem valChars_padLeft0 (w n : Nat) : valChars (padLeft0 w n).data = n := by
  show valChars (List.replicate (w - (decRepr n).length) '0' ++ decRepr n) = n
  rw [valChars_replicate_append, valChars_decRepr]

theorem padLeft0_injective (w a b : Nat) (h : padLeft0 w a = padLeft0 w b) :
    a = b := by
  have : valChars (padLeft0 w a).data = valChars (padLeft0 w b).data := by rw [h]
  rwa [valChars_padLeft0, valChars_padLeft0] at this

/-! ## Invariants of the single-slot executor -/

theorem filterMap_concat (f : Ev → Option Nat) (t : List Ev) (e : Ev) :
    List.filterMap f (t ++ [e]) = List.filterMap f t ++ (f e).toList := by
  rw [List.filterMap_append]
  cases h : f e <;> simp [List.filterMap, h]

theorem traceR_inv {t : List Ev} {s : ExecState} (h : TraceR initState t s) :
    s.done = fins t ∧ starts t = fins t ++ s.running.toList
      ∧ subs t = starts t ++ s.pendingQ := by
  induction h with
  | nil =>
    simp [subs, starts, fins, initState]
  | snoc htr hstep ih =>
    obtain ⟨ih1, ih2, ih3⟩ := ih
    cases hstep with
    | submit j p r d =>
      simp only [ExecState.done, ExecState.running, ExecState.pendingQ]
        at ih1 ih2 ih3 ⊢
      simp only [subs, starts, fins, filterMap_concat, evSubmit, evStart,
        evFinish, Option.toList_some, Option.toList_none, List.append_nil]
        at ih1 ih2 ih3 ⊢
      refine ⟨ih1, ih2, ?_⟩
      rw [ih3]
      simp
    | start j p d =>
      simp only [ExecState.done, ExecState.running, ExecState.pendingQ]
        at ih1 ih2 ih3 ⊢
      simp only [subs, starts, fins, filterMap_concat, evSubmit, evStart,
        evFinish, Option.toList_some, Option.toList_none, List.append_nil]
        at ih1 ih2 ih3 ⊢
      refine ⟨ih1, ?_, ?_⟩
      · rw [ih2]
      · rw [ih3]; simp
    | finish j p d =>
      simp only [ExecState.done, ExecState.running, ExecState.pendingQ]
        at ih1 ih2 ih3 ⊢
      simp only [subs, starts, fins, filterMap_concat, evSubmit, evStart,
        evFinish, Option.toList_some, Option.toList_none, List.append_nil]
        at ih1 ih2 ih3 ⊢
      refine ⟨?_, ih2, ih3⟩
      rw [ih1]

theorem traceR_split {s s2 : ExecState} {w : List Ev} (h : TraceR s w s2) :
    ∀ u v : List Ev, w = u ++ v → ∃ m, TraceR s u m ∧ TraceR m v s2 := by
  induction h with
  | nil =>
    intro u v huv
    obtain ⟨hu, hv⟩ := List.append_eq_nil.mp huv.symm
    subst hu; subst hv
    exact ⟨s, TraceR.nil s, TraceR.nil s⟩
  | @snoc t s1 e s2x htr hstep ih =>
    intro u v huv
    by_cases hv : v = []
    · subst hv
      rw [List.append_nil] at huv
      subst huv
      exact ⟨s2x, TraceR.snoc htr hstep, TraceR.nil s2x⟩
    · have hv2 : v.dropLast ++ [v.getLast hv] = v := List.dropLast_append_getLast hv
      have heq : t ++ [e] = (u ++ v.dropLast) ++ [v.getLast hv] := by
        rw [List.append_assoc, hv2]; exact huv
      obtain ⟨ht, he⟩ := List.append_inj' heq rfl
      have he2 : e = v.getLast hv := by simpa using he
      obtain ⟨m, hm1, hm2⟩ := ih u v.dropLast ht
      refine ⟨m, hm1, ?_⟩
      have hfin : TraceR m (v.dropLast ++ [e]) s2x := TraceR.snoc hm2 hstep
      rw [he2] at hfin
      rwa [hv2] at hfin

theorem traceR_of_nil {s m : ExecState} {w : List Ev} (h : TraceR s w m) :
    w = [] → m = s := by
  induction h with
  | nil => intro; rfl
  | snoc htr hstep ih => intro hw; exact absurd hw (by simp)

theorem traceR_snoc_inv {s m : ExecState} {w u : List Ev} {e : Ev}
    (h : TraceR s w m) (hw : w = u ++ [e]) :
    ∃ s1, TraceR s u s1 ∧ ExecStep s1 e m := by
  induction h with
  | nil => exact absurd hw.symm (by simp)
  | @snoc t s1 e2 s2x htr hstep ih =>
    obtain ⟨h1, h2⟩ := List.append_inj' hw rfl
    have he : e2 = e := by simpa using h2
    subst h1
    subst he
    exact ⟨s1, htr, hstep⟩

/-- Claim C1: submissions to the single-slot executor are serialized in
submission order.  For every valid trace of the dispatcher from the initial
state: the sequence of started invocations follows the submission sequence
(it is an initial segment of it); at any point the started invocations
exceed the recorded outcomes by at most the single one in flight; and at
the instant any invocation starts, every previously started invocation has
already had its outcome recorded (so for jobs J1 submitted before J2, J1
starts and finishes before J2 starts). -/
theorem executor_serialized (t : List Ev) (s : ExecState)
    (h : TraceR initState t s) :
    (∃ rest, subs t = starts t ++ rest) ∧
    starts t = fins t ++ s.running.toList ∧
    (∀ u j v, t = u ++ Ev.start j :: v → fins u = starts u) := by
  obtain ⟨_, h2, h3⟩ := traceR_inv h
  refine ⟨⟨s.pendingQ, h3⟩, h2, ?_⟩
  intro u j v huv
  have huv2 : t = (u ++ [Ev.start j]) ++ v := by
    rw [List.append_assoc]; simpa using huv
  obtain ⟨m, hm1, _⟩ := traceR_split h (u ++ [Ev.start j]) v huv2
  obtain ⟨s1, htr, hstep⟩ := traceR_snoc_inv hm1 rfl
  cases hstep with
  | start j2 p d =>
    obtain ⟨_, hstart, _⟩ := traceR_inv htr
    simpa using hstart.symm

theorem exTrace_valid : TraceR initState exTrace exFinal := by
  have h1 : TraceR initState [Ev.submit 1]
      { pendingQ := [1], running := none, done := [] } :=
    TraceR.snoc (TraceR.nil initState) (ExecStep.submit 1 [] none [])
  have h2 : TraceR initState [Ev.submit 1, Ev.submit 2]
      { pendingQ := [1, 2], running := none, done := [] } :=
    TraceR.snoc h1 (ExecStep.submit 2 [1] none [])
  have h3 : TraceR initState [Ev.submit 1, Ev.submit 2, Ev.start 1]
      { pendingQ := [2], running := some 1, done := [] } :=
    TraceR.snoc h2 (ExecStep.start 1 [2] [])
  have h4 : TraceR initState [Ev.submit 1, Ev.submit 2, Ev.start 1, Ev.finish 1]
      { pendingQ := [2], running := none, done := [1] } :=
    TraceR.snoc h3 (ExecStep.finish 1 [2] [])
  have h5 : TraceR initState
      [Ev.submit 1, Ev.submit 2, Ev.start 1, Ev.finish 1, Ev.start 2]
      { pendingQ := [], running := some 2, done := [1] } :=
    TraceR.snoc h4 (ExecStep.start 2 [] [1])
  exact TraceR.snoc h5 (ExecStep.finish 2 [] [1])

/-- Witness for C1: in the concrete trace submit 1, submit 2, start 1,
finish 1, start 2, finish 2, at the instant job 2 starts every earlier
started invocation has its outcome recorded. -/
theorem executor_serialized_witness :
    fins [Ev.submit 1, Ev.submit 2, Ev.start 1, Ev.finish 1]
      = starts [Ev.submit 1, Ev.submit 2, Ev.start 1, Ev.finish 1] :=
  (executor_serialized exTrace exFinal exTrace_valid).2.2
    [Ev.submit 1, Ev.submit 2, Ev.start 1, Ev.finish 1] 2 [Ev.finish 2] rfl

/-! ## Helper lemmas about the listener state functions -/

theorem lookup_filter_ne (p : String) (l : List (String × Payload)) :
    List.lookup p (l.filter (fun e => e.1 != p)) = none := by
  induction l with
  | nil => rfl
  | cons x xs ih =>
    obtain ⟨k, v⟩ := x
    by_cases hk : k = p
    · subst hk
      simpa [List.filter_cons] using ih
    · have h1 : ((k, v).1 != p) = true := by simpa using hk
      have h2 : (p == k) = false := beq_eq_false_iff_ne.mpr (Ne.symm hk)
      simp [List.filter_cons, h1, List.lookup, h2, ih]

theorem ensure_worker_executor_queue (w : World) :
    (ensure_worker_executor w).queue = w.queue := by
  unfold ensure_worker_executor
  by_cases h : w.executorCreated <;> simp [h]

theorem enqueue_worker_queue (j : String) (w : World) :
    (enqueue_worker j w).queue = w.queue := by
  unfold enqueue_worker
  simp [ensure_worker_executor_queue]

/-- Evaluation of the OnItemAdd body on a matching mail item: the job file
is written first; then the backup copy either succeeds (and the job is
enqueued) or raises (and the error propagates to the handler). -/
theorem onItemAddBody_eval (item : MailItem) (d : DT) (ns : Nat) (bk : Bool)
    (w : World) (hClass : item.Class = 43)
    (hhit : subject_hit item.Subject = true) :
    onItemAddBody item d ns bk w
      = if bk then
          Except.ok (enqueue_worker (fnameOf d ns)
            { w with
              queueExists := true
              queue := (fnameOf d ns, payloadOf item) :: w.queue
              downloadsExists := true
              downloads := (fnameOf d ns, payloadOf item) :: w.downloads
              console := w.console
                ++ ["[listener] Triggered for: " ++ item.Subject
                    ++ " -> " ++ fnameOf d ns] })
        else
          Except.error ("shutil.copy2 failed",
            { w with
              queueExists := true
              queue := (fnameOf d ns, payloadOf item) :: w.queue
              downloadsExists := true }) := by
  unfold onItemAddBody write_temp_json
  rw [if_neg (not_not_intro hClass), if_pos hhit]
  cases bk <;> rfl

theorem onItemAdd_hit_queue (item : MailItem) (d : DT) (ns : Nat) (bk : Bool)
    (now : String) (w : World) (hClass : item.Class = 43)
    (hhit : subject_hit item.Subject = true) :
    (OnItemAdd item d ns bk now w).queue
      = (fnameOf d ns, payloadOf item) :: w.queue := by
  unfold OnItemAdd
  rw [onItemAddBody_eval item d ns bk w hClass hhit]
  cases bk
  · simp
  · simp [enqueue_worker_queue]

/-! ## Claims C2, C3, C4: run_worker and worker_task -/

/-- Claim C2 counterexample: with exit code 0 but a delete (unlink) that
raises OSError, which run_worker tolerates with pass, the job is archived
yet the job file is still present in the queue directory afterwards, so
the claimed unconditional absence from the queue fails. -/
theorem run_worker_unlink_error_keeps_file :
    List.lookup "job.json"
      (worker_task (Except.ok ⟨0, "", ""⟩) false "Fri Oct 31" "job.json" wQueued).queue
      = some payloadEx ∧
    List.lookup "job.json"
      (worker_task (Except.ok ⟨0, "", ""⟩) false "Fri Oct 31" "job.json" wQueued).archive
      = some payloadEx := by
  exact ⟨by decide, by decide⟩

/-- Claim C2 (amended): for a job whose worker subprocess exits with code 0,
run_worker creates the success archive directory if absent and copies the
job file into it under the same filename with identical content; provided
the delete of the original does not raise an OS error (unlinkOk), the job
file is afterwards absent from the queue directory.  On a tolerated delete
error the original remains, see the counterexample. -/
theorem run_worker_success_archives (res : SubprocResult) (now jobName : String)
    (w : World) (content : Payload) (hrc : res.returncode = 0)
    (hfile : List.lookup jobName w.queue = some content) :
    run_worker (Except.ok res) true now jobName w
      = Except.ok { w with
          archiveExists := true
          archive := (jobName, content) :: w.archive
          queue := w.queue.filter (fun e => e.1 != jobName)
          runnerLog := w.runnerLog
            ++ [now ++ " ran " ++ cmdRender ++ " for " ++ jobName
                ++ " -> rc=" ++ toString res.returncode]
            ++ (if res.stdout ≠ "" then ["stdout:\n" ++ res.stdout] else [])
            ++ (if res.stderr ≠ "" then ["stderr:\n" ++ res.stderr] else [])
          console := (w.console ++ ["[listener] Starting automation for " ++ jobName])
            ++ ["[listener] Worker completed; archived to "
                ++ ARCHIVE_SUCCESS_DIR ++ "/" ++ jobName] } ∧
    List.lookup jobName (w.queue.filter (fun e => e.1 != jobName)) = none ∧
    List.lookup jobName ((jobName, content) :: w.archive) = some content := by
  refine ⟨?_, lookup_filter_ne jobName w.queue, by simp [List.lookup]⟩
  obtain ⟨rc, out, err⟩ := res
  have hrc2 : rc = 0 := hrc
  subst hrc2
  simp [run_worker, hfile]

/-- Witness for the amended C2 at a concrete job: the hypotheses hold and
after the successful run the file is gone from the queue and present in the
archive with identical content. -/
theorem run_worker_success_archives_witness :
    ((⟨0, "", ""⟩ : SubprocResult).returncode = 0) ∧
    List.lookup "job.json" wQueued.queue = some payloadEx ∧
    List.lookup "job.json" (wQueued.queue.filter (fun e => e.1 != "job.json")) = none ∧
    List.lookup "job.json" (("job.json", payloadEx) :: wQueued.archive) = some payloadEx :=
  ⟨rfl, by decide,
    (run_worker_success_archives ⟨0, "", ""⟩ "Fri Oct 31" "job.json" wQueued
      payloadEx rfl (by decide)).2⟩

/-- Claim C3: on a nonzero exit code run_worker only appends a runner-log
entry and console lines; the result world keeps the queue (job file left
byte-identical), the archive (no copy appears), and every other component
unchanged. -/
theorem run_worker_failure_frame (res : SubprocResult) (unlinkOk : Bool)
    (now jobName : String) (w : World) (hrc : res.returncode ≠ 0) :
    run_worker (Except.ok res) unlinkOk now jobName w
      = Except.ok { w with
          runnerLog := w.runnerLog
            ++ [now ++ " ran " ++ cmdRender ++ " for " ++ jobName
                ++ " -> rc=" ++ toString res.returncode]
            ++ (if res.stdout ≠ "" then ["stdout:\n" ++ res.stdout] else [])
            ++ (if res.stderr ≠ "" then ["stderr:\n" ++ res.stderr] else [])
          console := (w.console ++ ["[listener] Starting automation for " ++ jobName])
            ++ ["[listener] Worker failed for " ++ jobName ++ "; see "
                ++ runnerLogName] } := by
  simp [run_worker, hrc]

/-- Witness for C3 at a concrete failed job (rc = 1). -/
theorem run_worker_failure_frame_witness :
    ((⟨1, "", "boom"⟩ : SubprocResult).returncode ≠ 0) ∧
    run_worker (Except.ok ⟨1, "", "boom"⟩) true "Fri Oct 31" "job.json" wQueued
      = Except.ok { wQueued with
          runnerLog := wQueued.runnerLog
            ++ ["Fri Oct 31" ++ " ran " ++ cmdRender ++ " for " ++ "job.json"
                ++ " -> rc=" ++ toString (1 : Int)]
            ++ (if ("" : String) ≠ "" then ["stdout:\n" ++ ""] else [])
            ++ (if ("boom" : String) ≠ "" then ["stderr:\n" ++ "boom"] else [])
          console := (wQueued.console
              ++ ["[listener] Starting automation for " ++ "job.json"])
            ++ ["[listener] Worker failed for " ++ "job.json" ++ "; see "
                ++ runnerLogName] } :=
  ⟨by decide, run_worker_failure_frame ⟨1, "", "boom"⟩ true "Fri Oct 31" "job.json"
    wQueued (by decide)⟩

/-- Claim C4: if the subprocess invocation itself raises (for example a
missing executable), worker_task leaves queue, archive and downloads
untouched, logs exactly one failure line that contains the job filename,
and returns a world normally (the exception does not propagate to the
dispatcher). -/
theorem worker_task_spawn_failure (e : String) (unlinkOk : Bool)
    (now jobName : String) (w : World) :
    worker_task (Except.error e) unlinkOk now jobName w
      = { w with
          console := w.console ++ ["[listener] Starting automation for " ++ jobName]
          runnerLog := w.runnerLog
            ++ [now ++ " worker_task error for " ++ jobName ++ ": " ++ e] } ∧
    (∃ pre post, now ++ " worker_task error for " ++ jobName ++ ": " ++ e
        = pre ++ jobName ++ post) := by
  refine ⟨rfl, ⟨now ++ " worker_task error for ", ": " ++ e, ?_⟩⟩
  simp [String.append_assoc]

/-! ## Claims C5, C8, C9, C10: the OnItemAdd handler -/

/-- Claim C5: for a mail item (Class 43), if the subject case-insensitively
contains a configured keyword phrase then OnItemAdd writes exactly one new
job file into the queue directory and its record carries that subject
verbatim; if no keyword occurs, the handler returns the world unchanged
(no file written, nothing enqueued). -/
theorem onItemAdd_subject_filter (item : MailItem) (d : DT) (ns : Nat)
    (bk : Bool) (now : String) (w : World) (hClass : item.Class = 43) :
    (subject_hit item.Subject = true →
      (OnItemAdd item d ns bk now w).queue
        = (fnameOf d ns, payloadOf item) :: w.queue ∧
      List.lookup "subject" (payloadOf item) = some item.Subject) ∧
    (subject_hit item.Subject = false →
      OnItemAdd item d ns bk now w = w) := by
  constructor
  · intro hhit
    exact ⟨onItemAdd_hit_queue item d ns bk now w hClass hhit,
      by simp [payloadOf, List.lookup]⟩
  · intro hmiss
    unfold OnItemAdd onItemAddBody
    rw [if_neg (not_not_intro hClass), if_neg (by simp [hmiss])]

/-- Witness for C5: the keyword subject produces exactly one queue entry
carrying the subject verbatim. -/
theorem onItemAdd_subject_filter_witness :
    (itemHit.Class = 43) ∧ subject_hit itemHit.Subject = true ∧
    (OnItemAdd itemHit dEx 5 true "Fri Oct 31" emptyWorld).queue
      = [(fnameOf dEx 5, payloadOf itemHit)] ∧
    List.lookup "subject" (payloadOf itemHit)
      = some "ESKER VENDOR EMAIL batch 12" := by
  have h := (onItemAdd_subject_filter itemHit dEx 5 true "Fri Oct 31" emptyWorld
    rfl).1 (by decide)
  exact ⟨rfl, by decide, h.1, h.2⟩

/-- Claim C8: every exception escaping the body of OnItemAdd is caught in
that same invocation: the handler returns the world reached at the raise
point with exactly one line appended to the error log, and never
propagates (OnItemAdd is a total function into worlds). -/
theorem onItemAdd_catches_and_logs (item : MailItem) (d : DT) (ns : Nat)
    (bk : Bool) (now : String) (w : World) (e : String) (w1 : World)
    (h : onItemAddBody item d ns bk w = Except.error (e, w1)) :
    OnItemAdd item d ns bk now w
      = { w1 with errorLog := w1.errorLog
          ++ [now ++ " OnItemAdd error: " ++ e] } := by
  unfold OnItemAdd
  rw [h]

/-- Witness for C8: a concrete raising path (the unguarded backup copy in
write_temp_json fails) is caught and logged; the already-written job file
survives in the caught world. -/
theorem onItemAdd_catches_and_logs_witness :
    onItemAddBody itemHit dEx 5 false emptyWorld
      = Except.error ("shutil.copy2 failed", wB) ∧
    OnItemAdd itemHit dEx 5 false "Fri Oct 31" emptyWorld
      = { wB with errorLog := wB.errorLog
          ++ ["Fri Oct 31 OnItemAdd error: shutil.copy2 failed"] } := by
  have hbody : onItemAddBody itemHit dEx 5 false emptyWorld
      = Except.error ("shutil.copy2 failed", wB) := by rfl
  exact ⟨hbody, onItemAdd_catches_and_logs itemHit dEx 5 false "Fri Oct 31"
    emptyWorld "shutil.copy2 failed" wB hbody⟩

/-- Claim C9 (amended): every job record written for a matching mail item
has exactly the five fields subject, sender_address, received_utc, body,
entry_id, in that order, each a string (the payload type); received_utc is
the strftime ISO-8601 Z-suffixed rendering of the received time when that
formatting succeeds, and otherwise the raw str(recv) fallback, which need
not be Z-suffixed (see the counterexample). -/
theorem onItemAdd_payload_schema (item : MailItem) (d : DT) (ns : Nat)
    (bk : Bool) (now : String) (w : World) (hClass : item.Class = 43)
    (hhit : subject_hit item.Subject = true) :
    (OnItemAdd item d ns bk now w).queue
      = (fnameOf d ns, payloadOf item) :: w.queue ∧
    (payloadOf item).map Prod.fst
      = ["subject", "sender_address", "received_utc", "body", "entry_id"] ∧
    List.lookup "received_utc" (payloadOf item) = some (recvStr item) ∧
    (item.strftimeOk = true → zSuffixed (recvStr item) = true) := by
  refine ⟨onItemAdd_hit_queue item d ns bk now w hClass hhit,
    by simp [payloadOf], by simp [payloadOf, List.lookup], ?_⟩
  intro hok
  unfold zSuffixed recvStr
  rw [if_pos hok]
  unfold isoFormat
  simp only [String.data_append]
  rw [List.getLast?_concat]
  decide

/-- Witness for the amended C9 at a mail item whose strftime succeeds. -/
theorem onItemAdd_payload_schema_witness :
    (itemHit.Class = 43) ∧ subject_hit itemHit.Subject = true ∧
    itemHit.strftimeOk = true ∧
    (payloadOf itemHit).map Prod.fst
      = ["subject", "sender_address", "received_utc", "body", "entry_id"] ∧
    List.lookup "received_utc" (payloadOf itemHit) = some (recvStr itemHit) ∧
    zSuffixed (recvStr itemHit) = true := by
  have h := onItemAdd_payload_schema itemHit dEx 5 true "Fri Oct 31" emptyWorld
    rfl (by decide)
  exact ⟨rfl, by decide, rfl, h.2.1, h.2.2.1, h.2.2.2 rfl⟩

/-- Claim C9 counterexample: when recv.strftime raises, the source falls
back to str(recv); the record actually written carries that raw value as
received_utc, and it is not Z-suffixed, refuting the unconditional ISO-8601
Z-suffix claim. -/
theorem onItemAdd_received_not_iso :
    (OnItemAdd itemBad dEx 5 true "Fri Oct 31" emptyWorld).queue
      = [(fnameOf dEx 5, payloadOf itemBad)] ∧
    List.lookup "received_utc" (payloadOf itemBad)
      = some "10/31/2025 08:15:00 AM" ∧
    zSuffixed "10/31/2025 08:15:00 AM" = false := by
  exact ⟨by decide, by decide, by decide⟩

/-- Claim C10: OnItemAdd ignores every item whose Class is not 43
(olMailItem) with no side effect at all: the world, including every log,
is returned unchanged, whatever the subject. -/
theorem onItemAdd_nonmail_noop (item : MailItem) (d : DT) (ns : Nat)
    (bk : Bool) (now : String) (w : World) (hClass : item.Class ≠ 43) :
    OnItemAdd item d ns bk now w = w := by
  unfold OnItemAdd onItemAddBody
  rw [if_pos hClass]

/-- Witness for C10: a non-mail item (Class 42) with a keyword subject
leaves the world untouched. -/
theorem onItemAdd_nonmail_noop_witness :
    (itemOther.Class ≠ 43) ∧
    OnItemAdd itemOther dEx 5 true "Fri Oct 31" emptyWorld = emptyWorld :=
  ⟨by decide, onItemAdd_nonmail_noop itemOther dEx 5 true "Fri Oct 31"
    emptyWorld (by decide)⟩

/-! ## Claims C6, C7: the payload writer -/

/-- Claim C6: two records written within the same wall-clock second (the
strftime reading d is the same and the nanosecond readings lie in the same
second) at distinct nanosecond readings get distinct filenames. -/
theorem write_temp_json_filename_unique (d : DT) (n1 n2 : Nat)
    (hsec : n1 / 1000000000 = n2 / 1000000000) (hne : n1 ≠ n2) :
    fnameOf d n1 ≠ fnameOf d n2 := by
  have hmod : n1 % 1000000000 ≠ n2 % 1000000000 := by
    intro hm
    apply hne
    have e1 := Nat.div_add_mod n1 1000000000
    have e2 := Nat.div_add_mod n2 1000000000
    omega
  intro heq
  apply hmod
  have hdata := congrArg String.data heq
  simp only [fnameOf, String.data_append] at hdata
  have h1 := List.append_cancel_right hdata
  have h2 := List.append_cancel_left h1
  exact padLeft0_injective 9 (n1 % 1000000000) (n2 % 1000000000) (String.ext h2)

/-- Witness for C6: nanosecond readings 5 and 7 of the same second give
distinct filenames. -/
theorem write_temp_json_filename_unique_witness :
    ((5 : Nat) / 1000000000 = 7 / 1000000000) ∧
    fnameOf dEx 5 ≠ fnameOf dEx 7 :=
  ⟨rfl, write_temp_json_filename_unique dEx 5 7 rfl (by decide)⟩

/-- Claim C7 (amended): when the backup copy to the Downloads mirror fails,
the primary write to the queue directory has already succeeded and the new
job file persists there, but write_temp_json does not return the path: the
exception propagates out (as Except.error) to the caller. -/
theorem write_temp_json_backup_failure (data : Payload) (d : DT) (ns : Nat)
    (w : World) :
    write_temp_json data d ns false w
      = Except.error ("shutil.copy2 failed",
          { w with
            queueExists := true
            queue := (fnameOf d ns, data) :: w.queue
            downloadsExists := true }) ∧
    List.lookup (fnameOf d ns) ((fnameOf d ns, data) :: w.queue) = some data := by
  exact ⟨rfl, by simp [List.lookup]⟩

/-- Claim C7 counterexample: at a concrete record, a failing backup makes
write_temp_json yield Except.error rather than return the queue path (so
the claim that it still returns the path fails), even though the primary
file is present in the queue map of the error-state world. -/
theorem write_temp_json_backup_failure_no_return :
    (write_temp_json payloadEx dEx 5 false emptyWorld).isOk = false ∧
    write_temp_json payloadEx dEx 5 false emptyWorld
      = Except.error ("shutil.copy2 failed",
          { emptyWorld with
            queueExists := true
            queue := [(fnameOf dEx 5, payloadEx)]
            downloadsExists := true }) ∧
    List.lookup (fnameOf dEx 5) [(fnameOf dEx 5, payloadEx)] = some payloadEx := by
  exact ⟨rfl, rfl, by decide⟩
